import Mathlib

/-!
Formal model of the report-synthesis state machine of `Joystick.c`
(Splatmeme printer).  The embedding follows the C source: the global
variables become fields of an explicit state record, `GetNextReport`
becomes a pure function from that state (plus the bitmap contents and the
caller's report buffer) to the new state and the produced report.
C `int` arithmetic on the cursor coordinates is modelled with `Int`
using truncated division/modulus (`Int.tdiv` / `Int.tmod`), which is the
C semantics of `/` and `%` on `int`.
-/

/-- `ECHOES` (Joystick.c line 158): each synthesized report is repeated
this many extra times. -/
def ECHOES : Nat := 2

/-- Modelled from the spec: `POLLING_MS` comes from `Joystick.h`, which is
not among the sources here.  The spec (§5) and the comment block above
`ECHOES` in Joystick.c state that the effective report interval of the
reference design is 8 ms; any `POLLING_MS < 16` yields the same value of
`max(POLLING_MS, 8) / 8 * 8 = 8`, so we model the constant as 8. -/
def POLLING_MS : Nat := 8

/-- `ms_2_count` macro (Joystick.c line 171):
`ms / ECHOES / (max(POLLING_MS, 8) / 8 * 8)`, all in C integer division. -/
def ms_2_count (ms : Nat) : Nat := ms / ECHOES / (max POLLING_MS 8 / 8 * 8)

/-- Modelled from the spec: button bitmask constants come from
`Joystick.h` (not among the sources).  The spec (§3, §6) requires two
distinct single bits of a 16-bit mask: one for the ink/action button and
one for the clear-screen stick click. -/
def SWITCH_A : Nat := 4

/-- Modelled from the spec: the clear-screen stick-click button bit,
distinct from `SWITCH_A` (see §3, §6 of the spec). -/
def SWITCH_LCLICK : Nat := 1024

/-- Modelled from the spec: neutral (mid-scale) analog stick value (§6). -/
def STICK_CENTER : Nat := 128

/-- Modelled from the spec: minimum analog stick value used during the
position-sync drive (§6). -/
def STICK_MIN : Nat := 0

/-- Modelled from the spec: HAT encoding of §6
(0 = center, 1 = up, 3 = right, 5 = down, 7 = left); the concrete values
come from `Joystick.h`, which is not among the sources, and only their
distinctness matters to the state machine. -/
def HAT_CENTER : Nat := 0

/-- Modelled from the spec: the up direction of the directional pad. -/
def HAT_TOP : Nat := 1

/-- Modelled from the spec: the right direction of the directional pad. -/
def HAT_RIGHT : Nat := 3

/-- Modelled from the spec: the down direction of the directional pad. -/
def HAT_BOTTOM : Nat := 5

/-- Modelled from the spec: the left direction of the directional pad. -/
def HAT_LEFT : Nat := 7

/-- Size of the `image_data` array (Joystick.c line 29): `0x12c1` bytes. -/
def IMAGE_SIZE : Nat := 0x12c1

/-- `USB_JoystickReport_Input_t`: button mask, HAT, four stick axes and
the vendor-specific byte. -/
structure Report where
  Button : Nat
  HAT : Nat
  LX : Nat
  LY : Nat
  RX : Nat
  RY : Nat
  VendorSpec : Nat
deriving DecidableEq, Repr

/-- The report prepared at the top of `GetNextReport` (lines 179-184):
`memset` to zero, then both sticks centered and the HAT centered. -/
def emptyReport : Report :=
  { Button := 0, HAT := HAT_CENTER, LX := STICK_CENTER, LY := STICK_CENTER,
    RX := STICK_CENTER, RY := STICK_CENTER, VendorSpec := 0 }

/-- The all-zero report: initial value of the global `last_report`
(a zero-initialized C global). -/
def zeroReport : Report :=
  { Button := 0, HAT := 0, LX := 0, LY := 0, RX := 0, RY := 0, VendorSpec := 0 }

/-- `is_black` macro (Joystick.c line 172):
`pgm_read_byte(&image_data[(x)/8 + (y)*40]) & (1 << ((x) % 8))`, used as a
truth value.  The bitmap contents are abstracted as `img : Nat → Nat`
(byte at each index); C `/` and `%` on `int` are `Int.tdiv` / `Int.tmod`. -/
def is_black (img : Nat → Nat) (x y : Int) : Bool :=
  img (x.tdiv 8 + y * 40).toNat &&& (1 <<< (x.tmod 8).toNat) != 0

/-- `State_t` (Joystick.c lines 139-145). -/
inductive State_t
  | SYNC_CONTROLLER
  | SYNC_POSITION
  | MOVE
  | STOP
  | DONE
deriving DecidableEq, Repr

/-- The global variables read and written by the switch statement and the
position update of `GetNextReport` (Joystick.c lines 146, 161, 164-167).
`report_count` and `portsval` are never read and are omitted. -/
structure Core where
  state : State_t
  command_count : Nat
  xpos : Int
  ypos : Int
  splat3_lag_correction_count : Nat
deriving DecidableEq, Repr

/-- The full mutable state of the synthesizer: the core variables plus the
echo machinery (`echoes`, `last_report`, Joystick.c lines 160-162). -/
structure MState where
  core : Core
  echoes : Nat
  last_report : Report
deriving DecidableEq, Repr

/-- The `switch (state)` statement of `GetNextReport`
(Joystick.c lines 195-267), acting on a neutral report.  Each branch
returns the updated globals and the report as left by the switch.
In the `STOP` branch the two assignments `state = MOVE; if (ypos > 119)
state = DONE;` are fused into a single conditional assignment, and the
conditional `Button |= ...` statements are written as conditional values
of the `Button` field. -/
def switchStep (img : Nat → Nat) (c : Core) : Core × Report :=
  let r := emptyReport
  match c.state with
  | .SYNC_CONTROLLER =>
    if c.command_count > ms_2_count 2000 then
      ({ c with command_count := 0, state := .SYNC_POSITION }, r)
    else
      ({ c with command_count := c.command_count + 1 }, r)
  | .SYNC_POSITION =>
    if c.command_count > ms_2_count 4000 then
      ({ c with command_count := 0, xpos := 0, ypos := 0, state := .STOP }, r)
    else
      ({ c with command_count := c.command_count + 1 },
       { r with LX := STICK_MIN, LY := STICK_MIN,
                Button := if c.command_count = ms_2_count 1500 ∨
                             c.command_count = ms_2_count 3000 then
                            r.Button ||| SWITCH_LCLICK
                          else r.Button })
  | .MOVE =>
    if (c.xpos = 0 ∧ c.ypos.tmod 2 = 1) ∨ (c.xpos = 319 ∧ c.ypos.tmod 2 = 0) then
      if c.splat3_lag_correction_count < 10 then
        ({ c with splat3_lag_correction_count := c.splat3_lag_correction_count + 1,
                  state := .STOP },
         { r with HAT := if c.xpos = 0 then HAT_LEFT else HAT_RIGHT })
      else
        ({ c with splat3_lag_correction_count := 0, state := .STOP },
         { r with HAT := HAT_BOTTOM })
    else if c.ypos.tmod 2 = 0 then
      ({ c with state := .STOP }, { r with HAT := HAT_RIGHT })
    else
      ({ c with state := .STOP }, { r with HAT := HAT_LEFT })
  | .STOP =>
    ({ c with state := if c.ypos > 119 then .DONE else .MOVE },
     { r with Button := if is_black img c.xpos c.ypos then
                          r.Button ||| SWITCH_A
                        else r.Button })
  | .DONE => (c, r)

/-- The position-update block of `GetNextReport` (Joystick.c lines
269-286): runs on the post-switch state, guarded by the phase test, and
dispatches on the HAT value placed in the report by the switch. -/
def positionUpdate (c : Core) (hat : Nat) : Core :=
  if c.state ≠ .SYNC_CONTROLLER ∧ c.state ≠ .SYNC_POSITION ∧ c.state ≠ .DONE then
    if hat = HAT_RIGHT then
      if c.xpos < 319 then { c with xpos := c.xpos + 1 } else c
    else if hat = HAT_LEFT then
      if c.xpos > 0 then { c with xpos := c.xpos - 1 } else c
    else if hat = HAT_TOP then
      { c with ypos := c.ypos - 1 }
    else if hat = HAT_BOTTOM then
      { c with ypos := c.ypos + 1 }
    else c
  else c

/-- One fresh (non-echoed) synthesis step: the switch statement followed
by the position update.  Returns the new core state and the report. -/
def getNextCore (img : Nat → Nat) (c : Core) : Core × Report :=
  let p := switchStep img c
  (positionUpdate p.1 p.2.HAT, p.2)

/-- `GetNextReport` (Joystick.c lines 175-291).  `ReportData` is the
caller's report buffer; it is overwritten with the neutral report before
anything else (lines 179-184), so its incoming contents are dead.  If
echoes remain, the cached report is replayed (lines 187-192).  The `DONE`
case returns early (line 266), skipping the caching step; every other
path caches the produced report and re-arms the echo counter
(lines 289-290). -/
def GetNextReport (img : Nat → Nat) (s : MState) (ReportData : Report) :
    MState × Report :=
  let ReportData := emptyReport
  if s.echoes > 0 then
    ({ s with echoes := s.echoes - 1 }, s.last_report)
  else if s.core.state = .DONE then
    (s, ReportData)
  else
    let p := getNextCore img s.core
    ({ core := p.1, echoes := ECHOES, last_report := p.2 }, p.2)

/-- One call of `GetNextReport` as made by `HID_Task`, which passes a
fresh stack buffer whose contents `GetNextReport` never reads. -/
def callStep (img : Nat → Nat) (s : MState) : MState :=
  (GetNextReport img s emptyReport).1

/-- `n` consecutive calls of `GetNextReport`. -/
def callRun (img : Nat → Nat) : Nat → MState → MState
  | 0, s => s
  | n + 1, s => callRun img n (callStep img s)

/-- `n` consecutive fresh synthesis steps (echoes abstracted away). -/
def coreRun (img : Nat → Nat) : Nat → Core → Core
  | 0, c => c
  | n + 1, c => coreRun img n (getNextCore img c).1

/-- Initial values of the C globals: `state = SYNC_CONTROLLER`, all
counters and coordinates 0, `echoes = 0`, `last_report` zeroed. -/
def initialCore : Core :=
  { state := .SYNC_CONTROLLER, command_count := 0, xpos := 0, ypos := 0,
    splat3_lag_correction_count := 0 }

/-- The initial full state of the synthesizer. -/
def initialState : MState :=
  { core := initialCore, echoes := 0, last_report := zeroReport }

/-- A state is reachable when some number of calls from the initial state
produces it. -/
def Reachable (img : Nat → Nat) (s : MState) : Prop :=
  ∃ n, callRun img n initialState = s

/-! ### Basic run lemmas -/

lemma tmod_two_eq (y : Int) (hy : 0 ≤ y) : y.tmod 2 = y % 2 :=
  Int.tmod_eq_emod hy (by decide)

lemma coreRun_succ (img : Nat → Nat) (n : Nat) (c : Core) :
    coreRun img (n + 1) c = coreRun img n (getNextCore img c).1 := rfl

lemma coreRun_add (img : Nat → Nat) (m n : Nat) (c : Core) :
    coreRun img (m + n) c = coreRun img n (coreRun img m c) := by
  induction m generalizing c with
  | zero => rw [Nat.zero_add]; rfl
  | succ m ih =>
    rw [show m + 1 + n = (m + n) + 1 from by omega, coreRun_succ, ih]
    rfl

lemma callRun_succ (img : Nat → Nat) (n : Nat) (s : MState) :
    callRun img (n + 1) s = callRun img n (callStep img s) := rfl

lemma callRun_add (img : Nat → Nat) (m n : Nat) (s : MState) :
    callRun img (m + n) s = callRun img n (callRun img m s) := by
  induction m generalizing s with
  | zero => rw [Nat.zero_add]; rfl
  | succ m ih =>
    rw [show m + 1 + n = (m + n) + 1 from by omega, callRun_succ, ih]
    rfl

/-! ### Single fresh-step characterizations -/

/-- A `SYNC_CONTROLLER` step below the threshold only increments the
counter. -/
lemma step_sc (img : Nat → Nat) (c : Core) (h : c.state = .SYNC_CONTROLLER)
    (hc : c.command_count ≤ ms_2_count 2000) :
    getNextCore img c =
      ({ c with command_count := c.command_count + 1 }, emptyReport) := by
  obtain ⟨st, cc, x, y, lag⟩ := c
  simp only at h hc
  subst h
  have hc' : ¬ cc > ms_2_count 2000 := by omega
  simp [getNextCore, switchStep, positionUpdate, emptyReport, HAT_CENTER, hc']

/-- The `SYNC_CONTROLLER` step above the threshold transitions to
`SYNC_POSITION` and resets the counter. -/
lemma step_sc_trans (img : Nat → Nat) (c : Core)
    (h : c.state = .SYNC_CONTROLLER) (hc : c.command_count > ms_2_count 2000) :
    getNextCore img c =
      ({ c with command_count := 0, state := .SYNC_POSITION }, emptyReport) := by
  obtain ⟨st, cc, x, y, lag⟩ := c
  simp only at h hc
  subst h
  simp [getNextCore, switchStep, positionUpdate, emptyReport, HAT_CENTER, hc]

/-- A `SYNC_POSITION` step below the threshold increments the counter and
emits the stick-drive report, with the clear-screen bit exactly at the two
checkpoints. -/
lemma step_sp (img : Nat → Nat) (c : Core) (h : c.state = .SYNC_POSITION)
    (hc : c.command_count ≤ ms_2_count 4000) :
    getNextCore img c =
      ({ c with command_count := c.command_count + 1 },
       { emptyReport with
         LX := STICK_MIN, LY := STICK_MIN,
         Button := (if c.command_count = ms_2_count 1500 ∨
                       c.command_count = ms_2_count 3000 then SWITCH_LCLICK
                    else 0) }) := by
  obtain ⟨st, cc, x, y, lag⟩ := c
  simp only at h hc
  subst h
  have hc' : ¬ cc > ms_2_count 4000 := by omega
  simp [getNextCore, switchStep, positionUpdate, emptyReport, HAT_CENTER,
        STICK_MIN, SWITCH_LCLICK, hc']

/-- The `SYNC_POSITION` step above the threshold resets the counter and the
cursor and transitions to `STOP`; the neutral HAT moves nothing. -/
lemma step_sp_trans (img : Nat → Nat) (c : Core)
    (h : c.state = .SYNC_POSITION) (hc : c.command_count > ms_2_count 4000) :
    getNextCore img c =
      ({ c with command_count := 0, xpos := 0, ypos := 0, state := .STOP },
       emptyReport) := by
  obtain ⟨st, cc, x, y, lag⟩ := c
  simp only at h hc
  subst h
  simp [getNextCore, switchStep, positionUpdate, emptyReport, HAT_CENTER,
        HAT_RIGHT, HAT_LEFT, HAT_TOP, HAT_BOTTOM, hc]

/-- A `STOP` step with the row still in range: ink decision, back to
`MOVE`, position unchanged. -/
lemma step_stop (img : Nat → Nat) (c : Core) (h : c.state = .STOP)
    (hy : ¬ c.ypos > 119) :
    getNextCore img c =
      ({ c with state := .MOVE },
       { emptyReport with
         Button := (if is_black img c.xpos c.ypos then SWITCH_A else 0) }) := by
  obtain ⟨st, cc, x, y, lag⟩ := c
  simp only at h hy
  subst h
  simp [getNextCore, switchStep, positionUpdate, emptyReport, HAT_CENTER,
        HAT_RIGHT, HAT_LEFT, HAT_TOP, HAT_BOTTOM, SWITCH_A, hy]

/-- A `STOP` step with the row out of range transitions to `DONE`. -/
lemma step_stop_done (img : Nat → Nat) (c : Core) (h : c.state = .STOP)
    (hy : c.ypos > 119) :
    getNextCore img c =
      ({ c with state := .DONE },
       { emptyReport with
         Button := (if is_black img c.xpos c.ypos then SWITCH_A else 0) }) := by
  obtain ⟨st, cc, x, y, lag⟩ := c
  simp only at h hy
  subst h
  simp [getNextCore, switchStep, positionUpdate, emptyReport, HAT_CENTER,
        SWITCH_A, hy]

/-- A `DONE` step changes nothing and leaves the neutral report. -/
lemma step_done (img : Nat → Nat) (c : Core) (h : c.state = .DONE) :
    getNextCore img c = (c, emptyReport) := by
  obtain ⟨st, cc, x, y, lag⟩ := c
  simp only at h
  subst h
  simp [getNextCore, switchStep, positionUpdate, emptyReport, HAT_CENTER]


/-- A `MOVE` step on an even row away from the right edge: pad right,
cursor moves right. -/
lemma step_move_right (img : Nat → Nat) (c : Core) (h : c.state = .MOVE)
    (hpar : c.ypos.tmod 2 = 0) (hx : c.xpos < 319) :
    getNextCore img c =
      ({ c with state := .STOP, xpos := c.xpos + 1 },
       { emptyReport with HAT := HAT_RIGHT }) := by
  obtain ⟨st, cc, x, y, lag⟩ := c
  simp only at h hpar hx
  subst h
  have hx' : ¬ x = 319 := by omega
  simp [getNextCore, switchStep, positionUpdate, emptyReport, HAT_CENTER,
        HAT_RIGHT, HAT_LEFT, HAT_TOP, HAT_BOTTOM, hpar, hx, hx']

/-- A `MOVE` step on an odd row away from the left edge: pad left, cursor
moves left. -/
lemma step_move_left (img : Nat → Nat) (c : Core) (h : c.state = .MOVE)
    (hpar : c.ypos.tmod 2 = 1) (hx : c.xpos > 0) :
    getNextCore img c =
      ({ c with state := .STOP, xpos := c.xpos - 1 },
       { emptyReport with HAT := HAT_LEFT }) := by
  obtain ⟨st, cc, x, y, lag⟩ := c
  simp only at h hpar hx
  subst h
  have hx' : ¬ x = 0 := by omega
  simp [getNextCore, switchStep, positionUpdate, emptyReport, HAT_CENTER,
        HAT_RIGHT, HAT_LEFT, HAT_TOP, HAT_BOTTOM, hpar, hx, hx']

/-- A `MOVE` step at the left boundary of an odd row inside the
lag-correction window: pad left again, cursor pinned at 0. -/
lemma step_move_lag_left (img : Nat → Nat) (c : Core) (h : c.state = .MOVE)
    (hx : c.xpos = 0) (hpar : c.ypos.tmod 2 = 1)
    (hlag : c.splat3_lag_correction_count < 10) :
    getNextCore img c =
      ({ c with
         state := .STOP,
         splat3_lag_correction_count := c.splat3_lag_correction_count + 1 },
       { emptyReport with HAT := HAT_LEFT }) := by
  obtain ⟨st, cc, x, y, lag⟩ := c
  simp only at h hx hpar hlag
  subst h; subst hx
  simp [getNextCore, switchStep, positionUpdate, emptyReport, HAT_CENTER,
        HAT_RIGHT, HAT_LEFT, HAT_TOP, HAT_BOTTOM, hpar, hlag]

/-- A `MOVE` step at the right boundary of an even row inside the
lag-correction window: pad right again, cursor pinned at 319. -/
lemma step_move_lag_right (img : Nat → Nat) (c : Core) (h : c.state = .MOVE)
    (hx : c.xpos = 319) (hpar : c.ypos.tmod 2 = 0)
    (hlag : c.splat3_lag_correction_count < 10) :
    getNextCore img c =
      ({ c with
         state := .STOP,
         splat3_lag_correction_count := c.splat3_lag_correction_count + 1 },
       { emptyReport with HAT := HAT_RIGHT }) := by
  obtain ⟨st, cc, x, y, lag⟩ := c
  simp only at h hx hpar hlag
  subst h; subst hx
  simp [getNextCore, switchStep, positionUpdate, emptyReport, HAT_CENTER,
        HAT_RIGHT, HAT_LEFT, HAT_TOP, HAT_BOTTOM, hpar, hlag]

/-- A `MOVE` step at the left boundary with the lag window exhausted:
pad down, row advances, lag counter resets. -/
lemma step_move_down_left (img : Nat → Nat) (c : Core) (h : c.state = .MOVE)
    (hx : c.xpos = 0) (hpar : c.ypos.tmod 2 = 1)
    (hlag : ¬ c.splat3_lag_correction_count < 10) :
    getNextCore img c =
      ({ c with
         state := .STOP, splat3_lag_correction_count := 0,
         ypos := c.ypos + 1 },
       { emptyReport with HAT := HAT_BOTTOM }) := by
  obtain ⟨st, cc, x, y, lag⟩ := c
  simp only at h hx hpar hlag
  subst h; subst hx
  simp [getNextCore, switchStep, positionUpdate, emptyReport, HAT_CENTER,
        HAT_RIGHT, HAT_LEFT, HAT_TOP, HAT_BOTTOM, hpar, hlag]

/-- A `MOVE` step at the right boundary with the lag window exhausted:
pad down, row advances, lag counter resets. -/
lemma step_move_down_right (img : Nat → Nat) (c : Core) (h : c.state = .MOVE)
    (hx : c.xpos = 319) (hpar : c.ypos.tmod 2 = 0)
    (hlag : ¬ c.splat3_lag_correction_count < 10) :
    getNextCore img c =
      ({ c with
         state := .STOP, splat3_lag_correction_count := 0,
         ypos := c.ypos + 1 },
       { emptyReport with HAT := HAT_BOTTOM }) := by
  obtain ⟨st, cc, x, y, lag⟩ := c
  simp only at h hx hpar hlag
  subst h; subst hx
  simp [getNextCore, switchStep, positionUpdate, emptyReport, HAT_CENTER,
        HAT_RIGHT, HAT_LEFT, HAT_TOP, HAT_BOTTOM, hpar, hlag]

/-- From `STOP` at an even row away from the right edge, two fresh steps
advance the cursor one pixel right and return to `STOP`. -/
lemma pair_stop_right (img : Nat → Nat) (c : Core) (h : c.state = .STOP)
    (hy : ¬ c.ypos > 119) (hpar : c.ypos.tmod 2 = 0) (hx : c.xpos < 319) :
    coreRun img 2 c = { c with xpos := c.xpos + 1 } := by
  obtain ⟨st, cc, x, y, lag⟩ := c
  simp only at h hy hpar hx
  subst h
  show (getNextCore img (getNextCore img ⟨.STOP, cc, x, y, lag⟩).1).1 = _
  simp only [step_stop img ⟨.STOP, cc, x, y, lag⟩ rfl hy,
             step_move_right img ⟨.MOVE, cc, x, y, lag⟩ rfl hpar hx]

/-- From `STOP` at an odd row away from the left edge, two fresh steps
advance the cursor one pixel left and return to `STOP`. -/
lemma pair_stop_left (img : Nat → Nat) (c : Core) (h : c.state = .STOP)
    (hy : ¬ c.ypos > 119) (hpar : c.ypos.tmod 2 = 1) (hx : c.xpos > 0) :
    coreRun img 2 c = { c with xpos := c.xpos - 1 } := by
  obtain ⟨st, cc, x, y, lag⟩ := c
  simp only at h hy hpar hx
  subst h
  show (getNextCore img (getNextCore img ⟨.STOP, cc, x, y, lag⟩).1).1 = _
  simp only [step_stop img ⟨.STOP, cc, x, y, lag⟩ rfl hy,
             step_move_left img ⟨.MOVE, cc, x, y, lag⟩ rfl hpar hx]

/-- From `STOP` at the left boundary of an odd row with lag budget left,
two fresh steps only bump the lag counter. -/
lemma pair_stop_lag_left (img : Nat → Nat) (c : Core) (h : c.state = .STOP)
    (hy : ¬ c.ypos > 119) (hx : c.xpos = 0) (hpar : c.ypos.tmod 2 = 1)
    (hlag : c.splat3_lag_correction_count < 10) :
    coreRun img 2 c =
      { c with splat3_lag_correction_count :=
          c.splat3_lag_correction_count + 1 } := by
  obtain ⟨st, cc, x, y, lag⟩ := c
  simp only at h hy hx hpar hlag
  subst h; subst hx
  show (getNextCore img (getNextCore img ⟨.STOP, cc, 0, y, lag⟩).1).1 = _
  simp only [step_stop img ⟨.STOP, cc, 0, y, lag⟩ rfl hy,
             step_move_lag_left img ⟨.MOVE, cc, 0, y, lag⟩ rfl rfl hpar hlag]

/-- From `STOP` at the right boundary of an even row with lag budget left,
two fresh steps only bump the lag counter. -/
lemma pair_stop_lag_right (img : Nat → Nat) (c : Core) (h : c.state = .STOP)
    (hy : ¬ c.ypos > 119) (hx : c.xpos = 319) (hpar : c.ypos.tmod 2 = 0)
    (hlag : c.splat3_lag_correction_count < 10) :
    coreRun img 2 c =
      { c with splat3_lag_correction_count :=
          c.splat3_lag_correction_count + 1 } := by
  obtain ⟨st, cc, x, y, lag⟩ := c
  simp only at h hy hx hpar hlag
  subst h; subst hx
  show (getNextCore img (getNextCore img ⟨.STOP, cc, 319, y, lag⟩).1).1 = _
  simp only [step_stop img ⟨.STOP, cc, 319, y, lag⟩ rfl hy,
             step_move_lag_right img ⟨.MOVE, cc, 319, y, lag⟩ rfl rfl hpar hlag]

/-- From `STOP` at the left boundary of an odd row with the lag window
exhausted, two fresh steps advance the row and reset the lag counter. -/
lemma pair_stop_down_left (img : Nat → Nat) (c : Core) (h : c.state = .STOP)
    (hy : ¬ c.ypos > 119) (hx : c.xpos = 0) (hpar : c.ypos.tmod 2 = 1)
    (hlag : ¬ c.splat3_lag_correction_count < 10) :
    coreRun img 2 c =
      { c with splat3_lag_correction_count := 0, ypos := c.ypos + 1 } := by
  obtain ⟨st, cc, x, y, lag⟩ := c
  simp only at h hy hx hpar hlag
  subst h; subst hx
  show (getNextCore img (getNextCore img ⟨.STOP, cc, 0, y, lag⟩).1).1 = _
  simp only [step_stop img ⟨.STOP, cc, 0, y, lag⟩ rfl hy,
             step_move_down_left img ⟨.MOVE, cc, 0, y, lag⟩ rfl rfl hpar hlag]

/-- From `STOP` at the right boundary of an even row with the lag window
exhausted, two fresh steps advance the row and reset the lag counter. -/
lemma pair_stop_down_right (img : Nat → Nat) (c : Core) (h : c.state = .STOP)
    (hy : ¬ c.ypos > 119) (hx : c.xpos = 319) (hpar : c.ypos.tmod 2 = 0)
    (hlag : ¬ c.splat3_lag_correction_count < 10) :
    coreRun img 2 c =
      { c with splat3_lag_correction_count := 0, ypos := c.ypos + 1 } := by
  obtain ⟨st, cc, x, y, lag⟩ := c
  simp only at h hy hx hpar hlag
  subst h; subst hx
  show (getNextCore img (getNextCore img ⟨.STOP, cc, 319, y, lag⟩).1).1 = _
  simp only [step_stop img ⟨.STOP, cc, 319, y, lag⟩ rfl hy,
             step_move_down_right img ⟨.MOVE, cc, 319, y, lag⟩ rfl rfl hpar hlag]

/-- From `MOVE` at the left boundary of an odd row with lag budget left,
two fresh steps (the lag `MOVE` and the following `STOP`) only bump the
lag counter and come back to `MOVE`. -/
lemma pair_move_lag_left (img : Nat → Nat) (c : Core) (h : c.state = .MOVE)
    (hy : ¬ c.ypos > 119) (hx : c.xpos = 0) (hpar : c.ypos.tmod 2 = 1)
    (hlag : c.splat3_lag_correction_count < 10) :
    coreRun img 2 c =
      { c with splat3_lag_correction_count :=
          c.splat3_lag_correction_count + 1 } := by
  obtain ⟨st, cc, x, y, lag⟩ := c
  simp only at h hy hx hpar hlag
  subst h; subst hx
  show (getNextCore img (getNextCore img ⟨.MOVE, cc, 0, y, lag⟩).1).1 = _
  simp only [step_move_lag_left img ⟨.MOVE, cc, 0, y, lag⟩ rfl rfl hpar hlag,
             step_stop img ⟨.STOP, cc, 0, y, lag + 1⟩ rfl hy]

/-- From `MOVE` at the right boundary of an even row with lag budget left,
two fresh steps only bump the lag counter and come back to `MOVE`. -/
lemma pair_move_lag_right (img : Nat → Nat) (c : Core) (h : c.state = .MOVE)
    (hy : ¬ c.ypos > 119) (hx : c.xpos = 319) (hpar : c.ypos.tmod 2 = 0)
    (hlag : c.splat3_lag_correction_count < 10) :
    coreRun img 2 c =
      { c with splat3_lag_correction_count :=
          c.splat3_lag_correction_count + 1 } := by
  obtain ⟨st, cc, x, y, lag⟩ := c
  simp only at h hy hx hpar hlag
  subst h; subst hx
  show (getNextCore img (getNextCore img ⟨.MOVE, cc, 319, y, lag⟩).1).1 = _
  simp only [step_move_lag_right img ⟨.MOVE, cc, 319, y, lag⟩ rfl rfl hpar hlag,
             step_stop img ⟨.STOP, cc, 319, y, lag + 1⟩ rfl hy]

/-! ### Phase traversal lemmas -/

/-- Repeated `SYNC_CONTROLLER` steps below the threshold accumulate in the
progress counter and touch nothing else. -/
lemma sc_run (img : Nat → Nat) (n : Nat) : ∀ (cc : Nat) (x y : Int) (lag : Nat),
    cc + n ≤ ms_2_count 2000 + 1 →
    coreRun img n ⟨.SYNC_CONTROLLER, cc, x, y, lag⟩ =
      ⟨.SYNC_CONTROLLER, cc + n, x, y, lag⟩ := by
  induction n with
  | zero => intro cc x y lag _; rfl
  | succ n ih =>
    intro cc x y lag hc
    rw [coreRun_succ,
        step_sc img ⟨.SYNC_CONTROLLER, cc, x, y, lag⟩ rfl
          (by show cc ≤ ms_2_count 2000; omega)]
    rw [show ({ Core.mk .SYNC_CONTROLLER cc x y lag with
                command_count := cc + 1 }) =
          Core.mk .SYNC_CONTROLLER (cc + 1) x y lag from rfl]
    rw [ih (cc + 1) x y lag (by omega)]
    congr 1
    omega

/-- Repeated `SYNC_POSITION` steps below the threshold accumulate in the
progress counter and touch nothing else. -/
lemma sp_run (img : Nat → Nat) (n : Nat) : ∀ (cc : Nat) (x y : Int) (lag : Nat),
    cc + n ≤ ms_2_count 4000 + 1 →
    coreRun img n ⟨.SYNC_POSITION, cc, x, y, lag⟩ =
      ⟨.SYNC_POSITION, cc + n, x, y, lag⟩ := by
  induction n with
  | zero => intro cc x y lag _; rfl
  | succ n ih =>
    intro cc x y lag hc
    rw [coreRun_succ,
        step_sp img ⟨.SYNC_POSITION, cc, x, y, lag⟩ rfl
          (by show cc ≤ ms_2_count 4000; omega)]
    rw [show ({ Core.mk .SYNC_POSITION cc x y lag with
                command_count := cc + 1 }) =
          Core.mk .SYNC_POSITION (cc + 1) x y lag from rfl]
    rw [ih (cc + 1) x y lag (by omega)]
    congr 1
    omega

/-- Scanning right: `2*k` fresh steps from `STOP` on an even row move the
cursor `k` pixels right. -/
lemma scan_right_run (img : Nat → Nat) (k : Nat) :
    ∀ (cc : Nat) (x y : Int) (lag : Nat), ¬ y > 119 → y.tmod 2 = 0 →
    x + k ≤ 319 →
    coreRun img (2 * k) ⟨.STOP, cc, x, y, lag⟩ = ⟨.STOP, cc, x + k, y, lag⟩ := by
  induction k with
  | zero => intro cc x y lag _ _ _; simp [coreRun]
  | succ k ih =>
    intro cc x y lag hy hpar hx
    rw [show 2 * (k + 1) = 2 + 2 * k from by omega, coreRun_add,
        pair_stop_right img ⟨.STOP, cc, x, y, lag⟩ rfl hy hpar (by push_cast at hx ⊢; omega)]
    rw [show ({ Core.mk .STOP cc x y lag with xpos := x + 1 }) =
          Core.mk .STOP cc (x + 1) y lag from rfl]
    rw [ih cc (x + 1) y lag hy hpar (by push_cast at hx ⊢; omega)]
    congr 1
    push_cast
    ring

/-- Scanning left: `2*k` fresh steps from `STOP` on an odd row move the
cursor `k` pixels left. -/
lemma scan_left_run (img : Nat → Nat) (k : Nat) :
    ∀ (cc : Nat) (x y : Int) (lag : Nat), ¬ y > 119 → y.tmod 2 = 1 →
    (k : Int) ≤ x →
    coreRun img (2 * k) ⟨.STOP, cc, x, y, lag⟩ = ⟨.STOP, cc, x - k, y, lag⟩ := by
  induction k with
  | zero => intro cc x y lag _ _ _; simp [coreRun]
  | succ k ih =>
    intro cc x y lag hy hpar hx
    rw [show 2 * (k + 1) = 2 + 2 * k from by omega, coreRun_add,
        pair_stop_left img ⟨.STOP, cc, x, y, lag⟩ rfl hy hpar (by push_cast at hx ⊢; omega)]
    rw [show ({ Core.mk .STOP cc x y lag with xpos := x - 1 }) =
          Core.mk .STOP cc (x - 1) y lag from rfl]
    rw [ih cc (x - 1) y lag hy hpar (by push_cast at hx ⊢; omega)]
    congr 1
    push_cast
    ring

/-- The lag-correction window entered from `STOP` at the left boundary:
`2*j` fresh steps only raise the lag counter by `j`. -/
lemma stop_window_left (img : Nat → Nat) (j : Nat) :
    ∀ (cc : Nat) (y : Int) (lag : Nat), ¬ y > 119 → y.tmod 2 = 1 →
    lag + j ≤ 10 →
    coreRun img (2 * j) ⟨.STOP, cc, 0, y, lag⟩ = ⟨.STOP, cc, 0, y, lag + j⟩ := by
  induction j with
  | zero => intro cc y lag _ _ _; rfl
  | succ j ih =>
    intro cc y lag hy hpar hj
    rw [show 2 * (j + 1) = 2 + 2 * j from by omega, coreRun_add,
        pair_stop_lag_left img ⟨.STOP, cc, 0, y, lag⟩ rfl hy rfl hpar
          (by show lag < 10; omega)]
    rw [show ({ Core.mk .STOP cc 0 y lag with
                splat3_lag_correction_count := lag + 1 }) =
          Core.mk .STOP cc 0 y (lag + 1) from rfl]
    rw [ih cc y (lag + 1) hy hpar (by omega)]
    congr 1
    omega

/-- The lag-correction window entered from `STOP` at the right boundary:
`2*j` fresh steps only raise the lag counter by `j`. -/
lemma stop_window_right (img : Nat → Nat) (j : Nat) :
    ∀ (cc : Nat) (y : Int) (lag : Nat), ¬ y > 119 → y.tmod 2 = 0 →
    lag + j ≤ 10 →
    coreRun img (2 * j) ⟨.STOP, cc, 319, y, lag⟩ =
      ⟨.STOP, cc, 319, y, lag + j⟩ := by
  induction j with
  | zero => intro cc y lag _ _ _; rfl
  | succ j ih =>
    intro cc y lag hy hpar hj
    rw [show 2 * (j + 1) = 2 + 2 * j from by omega, coreRun_add,
        pair_stop_lag_right img ⟨.STOP, cc, 319, y, lag⟩ rfl hy rfl hpar
          (by show lag < 10; omega)]
    rw [show ({ Core.mk .STOP cc 319 y lag with
                splat3_lag_correction_count := lag + 1 }) =
          Core.mk .STOP cc 319 y (lag + 1) from rfl]
    rw [ih cc y (lag + 1) hy hpar (by omega)]
    congr 1
    omega

/-- The lag-correction window observed from `MOVE` at the left boundary:
`2*j` fresh steps only raise the lag counter by `j`, returning to `MOVE`. -/
lemma move_window_left (img : Nat → Nat) (j : Nat) :
    ∀ (cc : Nat) (y : Int) (lag : Nat), ¬ y > 119 → y.tmod 2 = 1 →
    lag + j ≤ 10 →
    coreRun img (2 * j) ⟨.MOVE, cc, 0, y, lag⟩ = ⟨.MOVE, cc, 0, y, lag + j⟩ := by
  induction j with
  | zero => intro cc y lag _ _ _; rfl
  | succ j ih =>
    intro cc y lag hy hpar hj
    rw [show 2 * (j + 1) = 2 + 2 * j from by omega, coreRun_add,
        pair_move_lag_left img ⟨.MOVE, cc, 0, y, lag⟩ rfl hy rfl hpar
          (by show lag < 10; omega)]
    rw [show ({ Core.mk .MOVE cc 0 y lag with
                splat3_lag_correction_count := lag + 1 }) =
          Core.mk .MOVE cc 0 y (lag + 1) from rfl]
    rw [ih cc y (lag + 1) hy hpar (by omega)]
    congr 1
    omega

/-- The lag-correction window observed from `MOVE` at the right boundary:
`2*j` fresh steps only raise the lag counter by `j`, returning to `MOVE`. -/
lemma move_window_right (img : Nat → Nat) (j : Nat) :
    ∀ (cc : Nat) (y : Int) (lag : Nat), ¬ y > 119 → y.tmod 2 = 0 →
    lag + j ≤ 10 →
    coreRun img (2 * j) ⟨.MOVE, cc, 319, y, lag⟩ =
      ⟨.MOVE, cc, 319, y, lag + j⟩ := by
  induction j with
  | zero => intro cc y lag _ _ _; rfl
  | succ j ih =>
    intro cc y lag hy hpar hj
    rw [show 2 * (j + 1) = 2 + 2 * j from by omega, coreRun_add,
        pair_move_lag_right img ⟨.MOVE, cc, 319, y, lag⟩ rfl hy rfl hpar
          (by show lag < 10; omega)]
    rw [show ({ Core.mk .MOVE cc 319 y lag with
                splat3_lag_correction_count := lag + 1 }) =
          Core.mk .MOVE cc 319 y (lag + 1) from rfl]
    rw [ih cc y (lag + 1) hy hpar (by omega)]
    congr 1
    omega

/-- One even row: 638 scan steps, 20 lag-window steps and the down pair
bring the cursor from `(0, y)` to `(319, y + 1)`. -/
lemma row_even (img : Nat → Nat) (cc : Nat) (y : Int) (hy : ¬ y > 119)
    (hpar : y.tmod 2 = 0) :
    coreRun img 660 ⟨.STOP, cc, 0, y, 0⟩ = ⟨.STOP, cc, 319, y + 1, 0⟩ := by
  have h1 : coreRun img 638 ⟨.STOP, cc, 0, y, 0⟩ = ⟨.STOP, cc, 319, y, 0⟩ := by
    have h := scan_right_run img 319 cc 0 y 0 hy hpar (by norm_num)
    norm_num at h
    exact h
  have h2 : coreRun img 20 ⟨.STOP, cc, 319, y, 0⟩ = ⟨.STOP, cc, 319, y, 10⟩ := by
    have h := stop_window_right img 10 cc y 0 hy hpar (by norm_num)
    norm_num at h
    exact h
  have h3 : coreRun img 2 ⟨.STOP, cc, 319, y, 10⟩ = ⟨.STOP, cc, 319, y + 1, 0⟩ := by
    rw [pair_stop_down_right img ⟨.STOP, cc, 319, y, 10⟩ rfl hy rfl hpar
          (by show ¬ (10 : Nat) < 10; omega)]
  rw [show (660 : Nat) = 638 + (20 + 2) from rfl, coreRun_add, h1,
      coreRun_add, h2, h3]

/-- One odd row: 638 scan steps, 20 lag-window steps and the down pair
bring the cursor from `(319, y)` to `(0, y + 1)`. -/
lemma row_odd (img : Nat → Nat) (cc : Nat) (y : Int) (hy : ¬ y > 119)
    (hpar : y.tmod 2 = 1) :
    coreRun img 660 ⟨.STOP, cc, 319, y, 0⟩ = ⟨.STOP, cc, 0, y + 1, 0⟩ := by
  have h1 : coreRun img 638 ⟨.STOP, cc, 319, y, 0⟩ = ⟨.STOP, cc, 0, y, 0⟩ := by
    have h := scan_left_run img 319 cc 319 y 0 hy hpar (by norm_num)
    norm_num at h
    exact h
  have h2 : coreRun img 20 ⟨.STOP, cc, 0, y, 0⟩ = ⟨.STOP, cc, 0, y, 10⟩ := by
    have h := stop_window_left img 10 cc y 0 hy hpar (by norm_num)
    norm_num at h
    exact h
  have h3 : coreRun img 2 ⟨.STOP, cc, 0, y, 10⟩ = ⟨.STOP, cc, 0, y + 1, 0⟩ := by
    rw [pair_stop_down_left img ⟨.STOP, cc, 0, y, 10⟩ rfl hy rfl hpar
          (by show ¬ (10 : Nat) < 10; omega)]
  rw [show (660 : Nat) = 638 + (20 + 2) from rfl, coreRun_add, h1,
      coreRun_add, h2, h3]

/-- A double row (an even row followed by the odd row below it) returns
the cursor to the left edge two rows further down. -/
lemma double_row (img : Nat → Nat) (cc : Nat) (y : Int) (hy0 : 0 ≤ y)
    (hy : y ≤ 118) (hpar : y.tmod 2 = 0) :
    coreRun img 1320 ⟨.STOP, cc, 0, y, 0⟩ = ⟨.STOP, cc, 0, y + 2, 0⟩ := by
  have hpar1 : (y + 1).tmod 2 = 1 := by
    rw [tmod_two_eq _ (by omega)]
    rw [tmod_two_eq _ hy0] at hpar
    omega
  rw [show (1320 : Nat) = 660 + 660 from rfl, coreRun_add,
      row_even img cc y (by omega) hpar,
      row_odd img cc (y + 1) (by omega) hpar1]
  rw [show y + 1 + 1 = y + 2 from by ring]

/-- `m` double rows from the canvas origin. -/
lemma rows_run (img : Nat → Nat) (cc : Nat) (m : Nat) (hm : 2 * m ≤ 120) :
    coreRun img (1320 * m) ⟨.STOP, cc, 0, 0, 0⟩ =
      ⟨.STOP, cc, 0, 2 * (m : Int), 0⟩ := by
  induction m with
  | zero => simp [coreRun]
  | succ m ih =>
    have hm' : 2 * m ≤ 120 := by omega
    have hpar : (2 * (m : Int)).tmod 2 = 0 := by
      rw [tmod_two_eq _ (by positivity)]
      omega
    rw [show 1320 * (m + 1) = 1320 * m + 1320 from by ring, coreRun_add,
        ih hm',
        double_row img cc (2 * (m : Int)) (by positivity) (by push_cast; omega)
          hpar]
    congr 1

/-- The two synchronization phases: 127 + 252 fresh steps take the initial
state to `STOP` at the canvas origin. -/
lemma trace_sync (img : Nat → Nat) :
    coreRun img 379 initialCore = ⟨.STOP, 0, 0, 0, 0⟩ := by
  have h1 : coreRun img 126 initialCore = ⟨.SYNC_CONTROLLER, 126, 0, 0, 0⟩ := by
    have h := sc_run img 126 0 0 0 0 (by decide)
    norm_num at h
    exact h
  have h2 : coreRun img 1 ⟨.SYNC_CONTROLLER, 126, 0, 0, 0⟩ =
      ⟨.SYNC_POSITION, 0, 0, 0, 0⟩ := by
    rw [coreRun_succ,
        step_sc_trans img ⟨.SYNC_CONTROLLER, 126, 0, 0, 0⟩ rfl
          (by show 126 > ms_2_count 2000; decide)]
    rfl
  have h3 : coreRun img 251 ⟨.SYNC_POSITION, 0, 0, 0, 0⟩ =
      ⟨.SYNC_POSITION, 251, 0, 0, 0⟩ := by
    have h := sp_run img 251 0 0 0 0 (by decide)
    norm_num at h
    exact h
  have h4 : coreRun img 1 ⟨.SYNC_POSITION, 251, 0, 0, 0⟩ =
      ⟨.STOP, 0, 0, 0, 0⟩ := by
    rw [coreRun_succ,
        step_sp_trans img ⟨.SYNC_POSITION, 251, 0, 0, 0⟩ rfl
          (by show 251 > ms_2_count 4000; decide)]
    rfl
  rw [show (379 : Nat) = 126 + (1 + (251 + 1)) from rfl, coreRun_add, h1,
      coreRun_add, h2, coreRun_add, h3, h4]

/-- The complete logical trace: after 79579 fresh steps the machine sits
in `STOP` at cursor `(0, 120)`. -/
lemma trace_y120 (img : Nat → Nat) :
    coreRun img 79579 initialCore = ⟨.STOP, 0, 0, 120, 0⟩ := by
  have h := rows_run img 0 60 (by omega)
  norm_num at h
  rw [show (79579 : Nat) = 379 + 79200 from rfl, coreRun_add, trace_sync,
      show (79200 : Nat) = 1320 * 60 from rfl, h]

/-! ### Echo correspondence and reachability invariant -/

/-- Three consecutive calls starting with an empty echo buffer perform one
fresh synthesis step on the core and drain the two echoes. -/
lemma callRun_three (img : Nat → Nat) (s : MState) (h : s.echoes = 0) :
    (callRun img 3 s).core = (getNextCore img s.core).1 ∧
      (callRun img 3 s).echoes = 0 := by
  have e : callRun img 3 s = callStep img (callStep img (callStep img s)) :=
    rfl
  by_cases hD : s.core.state = .DONE
  · have hs : callStep img s = s := by
      simp [callStep, GetNextReport, h, hD]
    have hc : (getNextCore img s.core).1 = s.core := by
      rw [step_done img s.core hD]
    rw [e, hs, hs, hs]
    exact ⟨hc.symm, h⟩
  · have hs1 : callStep img s =
        { core := (getNextCore img s.core).1, echoes := 2,
          last_report := (getNextCore img s.core).2 } := by
      simp [callStep, GetNextReport, h, hD, ECHOES]
    have hs2 : ∀ (k : Core) (r : Report),
        callStep img { core := k, echoes := 2, last_report := r } =
          { core := k, echoes := 1, last_report := r } := by
      intro k r
      simp [callStep, GetNextReport]
    have hs3 : ∀ (k : Core) (r : Report),
        callStep img { core := k, echoes := 1, last_report := r } =
          { core := k, echoes := 0, last_report := r } := by
      intro k r
      simp [callStep, GetNextReport]
    rw [e, hs1, hs2, hs3]
    exact ⟨rfl, rfl⟩

/-- `3 * n` calls starting with an empty echo buffer are `n` fresh core
steps, ending with an empty echo buffer. -/
lemma callRun_core (img : Nat → Nat) (n : Nat) : ∀ s : MState, s.echoes = 0 →
    (callRun img (3 * n) s).core = coreRun img n s.core ∧
      (callRun img (3 * n) s).echoes = 0 := by
  induction n with
  | zero => intro s h; exact ⟨rfl, h⟩
  | succ n ih =>
    intro s h
    have h3 := callRun_three img s h
    rw [show 3 * (n + 1) = 3 + 3 * n from by ring, callRun_add]
    obtain ⟨ihc, ihe⟩ := ih (callRun img 3 s) h3.2
    refine ⟨?_, ihe⟩
    rw [ihc, h3.1, ← coreRun_succ]

/-- The reachability invariant: the cursor stays inside
`[0, 319] × [0, 120]`, the row can only be 120 outside of `MOVE`, and a
row of 120 forces the cursor to the left edge. -/
def CoreInv (c : Core) : Prop :=
  0 ≤ c.xpos ∧ c.xpos ≤ 319 ∧ 0 ≤ c.ypos ∧ c.ypos ≤ 120 ∧
    (c.state = .MOVE → c.ypos ≤ 119) ∧ (c.ypos = 120 → c.xpos = 0)

/-- The invariant holds initially. -/
lemma inv_init : CoreInv initialCore := by
  unfold CoreInv
  decide

/-- Every fresh synthesis step preserves the invariant. -/
lemma inv_step (img : Nat → Nat) (c : Core) (hI : CoreInv c) :
    CoreInv (getNextCore img c).1 := by
  obtain ⟨st, cc, x, y, lag⟩ := c
  obtain ⟨h1, h2, h3, h4, h5, h6⟩ := hI
  simp only at h1 h2 h3 h4 h5 h6
  cases st with
  | SYNC_CONTROLLER =>
    by_cases hc : cc ≤ ms_2_count 2000
    · rw [step_sc img ⟨.SYNC_CONTROLLER, cc, x, y, lag⟩ rfl hc]
      simp only [CoreInv]
      simp
      omega
    · rw [step_sc_trans img ⟨.SYNC_CONTROLLER, cc, x, y, lag⟩ rfl
            (by show cc > ms_2_count 2000; omega)]
      simp only [CoreInv]
      simp
      omega
  | SYNC_POSITION =>
    by_cases hc : cc ≤ ms_2_count 4000
    · rw [step_sp img ⟨.SYNC_POSITION, cc, x, y, lag⟩ rfl hc]
      simp only [CoreInv]
      simp
      omega
    · rw [step_sp_trans img ⟨.SYNC_POSITION, cc, x, y, lag⟩ rfl
            (by show cc > ms_2_count 4000; omega)]
      simp only [CoreInv]
      simp
  | MOVE =>
    have hy119 : y ≤ 119 := h5 rfl
    by_cases hbl : x = 0 ∧ y.tmod 2 = 1
    · by_cases hlag : lag < 10
      · rw [step_move_lag_left img ⟨.MOVE, cc, x, y, lag⟩ rfl hbl.1 hbl.2 hlag]
        simp only [CoreInv]
        simp
        omega
      · rw [step_move_down_left img ⟨.MOVE, cc, x, y, lag⟩ rfl hbl.1 hbl.2 hlag]
        simp only [CoreInv]
        simp
        have hx0 := hbl.1
        omega
    · by_cases hbr : x = 319 ∧ y.tmod 2 = 0
      · have hpar2 : y % 2 = 0 := by rw [← tmod_two_eq y h3]; exact hbr.2
        by_cases hlag : lag < 10
        · rw [step_move_lag_right img ⟨.MOVE, cc, x, y, lag⟩ rfl hbr.1 hbr.2
                hlag]
          simp only [CoreInv]
          simp
          omega
        · rw [step_move_down_right img ⟨.MOVE, cc, x, y, lag⟩ rfl hbr.1 hbr.2
                hlag]
          simp only [CoreInv]
          simp
          omega
      · by_cases hpar : y.tmod 2 = 0
        · have hx : x < 319 := by
            rcases lt_or_eq_of_le h2 with h | h
            · exact h
            · exact absurd ⟨h, hpar⟩ hbr
          rw [step_move_right img ⟨.MOVE, cc, x, y, lag⟩ rfl hpar hx]
          simp only [CoreInv]
          simp
          omega
        · have hpar1 : y.tmod 2 = 1 := by
            rw [tmod_two_eq y h3] at hpar ⊢
            omega
          have hx : x > 0 := by
            rcases lt_or_eq_of_le h1 with h | h
            · exact h
            · exact absurd ⟨h.symm, hpar1⟩ hbl
          rw [step_move_left img ⟨.MOVE, cc, x, y, lag⟩ rfl hpar1 hx]
          simp only [CoreInv]
          simp
          omega
  | STOP =>
    by_cases hy : y > 119
    · rw [step_stop_done img ⟨.STOP, cc, x, y, lag⟩ rfl hy]
      simp only [CoreInv]
      simp
      omega
    · rw [step_stop img ⟨.STOP, cc, x, y, lag⟩ rfl hy]
      simp only [CoreInv]
      simp
      omega
  | DONE =>
    rw [step_done img ⟨.DONE, cc, x, y, lag⟩ rfl]
    simp only [CoreInv]
    simp
    omega

/-- One call (echo replay, `DONE` return or fresh step) preserves the
invariant on the core. -/
lemma inv_callStep (img : Nat → Nat) (s : MState) (hI : CoreInv s.core) :
    CoreInv (callStep img s).core := by
  by_cases he : 0 < s.echoes
  · have h : (callStep img s).core = s.core := by
      simp [callStep, GetNextReport, he]
    rw [h]
    exact hI
  · by_cases hD : s.core.state = .DONE
    · have h : (callStep img s).core = s.core := by
        simp [callStep, GetNextReport, he, hD]
      rw [h]
      exact hI
    · have h : (callStep img s).core = (getNextCore img s.core).1 := by
        simp [callStep, GetNextReport, he, hD]
      rw [h]
      exact inv_step img s.core hI

/-- Any number of calls preserves the invariant on the core. -/
lemma inv_callRun (img : Nat → Nat) (n : Nat) : ∀ s : MState,
    CoreInv s.core → CoreInv (callRun img n s).core := by
  induction n with
  | zero => intro s h; exact h
  | succ n ih => intro s h; exact ih (callStep img s) (inv_callStep img s h)

/-- A call made in phase `DONE` never changes the core, whatever the echo
counter holds. -/
lemma done_callStep_core (img : Nat → Nat) (s : MState)
    (hD : s.core.state = .DONE) : (callStep img s).core = s.core := by
  by_cases he : 0 < s.echoes
  · simp [callStep, GetNextReport, he]
  · simp [callStep, GetNextReport, he, hD]

/-- Any number of calls made from phase `DONE` never changes the core. -/
lemma done_callRun_core (img : Nat → Nat) (n : Nat) : ∀ s : MState,
    s.core.state = .DONE → (callRun img n s).core = s.core := by
  induction n with
  | zero => intro s _; rfl
  | succ n ih =>
    intro s hD
    rw [callRun_succ, ih (callStep img s) (by rw [done_callStep_core img s hD]; exact hD),
        done_callStep_core img s hD]

/-! ### Claim theorems -/

/-- The mask test `m &&& (1 <<< k) ≠ 0` is exactly `Nat.testBit`. -/
lemma and_shift_testBit (m k : Nat) : (m &&& (1 <<< k) != 0) = m.testBit k := by
  rw [Nat.one_shiftLeft, Nat.and_two_pow]
  cases h : m.testBit k <;> simp [h]

/-- C8: for all x in [0, 319] and y in [0, 119], `isInk(x, y)` (the
`is_black` query) returns true exactly when bit `x mod 8` of the bitmap
byte at index `x / 8 + y * 40` is 1. -/
theorem spec_C8_bitmap (img : Nat → Nat) (x y : Int) (hx0 : 0 ≤ x)
    (hx : x ≤ 319) (hy0 : 0 ≤ y) (hy : y ≤ 119) :
    is_black img x y =
      Nat.testBit (img (x.toNat / 8 + y.toNat * 40)) (x.toNat % 8) := by
  obtain ⟨a, rfl⟩ := Int.eq_ofNat_of_zero_le hx0
  obtain ⟨b, rfl⟩ := Int.eq_ofNat_of_zero_le hy0
  have e1 : ((a : Int).tdiv 8 + (b : Int) * 40).toNat = a / 8 + b * 40 := by
    rw [show (a : Int).tdiv 8 = ((a / 8 : Nat) : Int) from rfl,
        show ((b : Int) * 40) = ((b * 40 : Nat) : Int) from by push_cast; ring,
        ← Nat.cast_add, Int.toNat_natCast]
  have e2 : ((a : Int).tmod 8).toNat = a % 8 := by
    rw [show (a : Int).tmod 8 = ((a % 8 : Nat) : Int) from rfl,
        Int.toNat_natCast]
  rw [is_black, e1, e2, Int.toNat_natCast, Int.toNat_natCast,
      and_shift_testBit]

/-- Witness for C8 at the concrete point (5, 3) on an all-ones bitmap. -/
theorem spec_C8_bitmap_witness :
    is_black (fun _ => 255) 5 3 =
      Nat.testBit ((fun _ => 255 : Nat → Nat)
        ((5 : Int).toNat / 8 + (3 : Int).toNat * 40)) ((5 : Int).toNat % 8) :=
  spec_C8_bitmap (fun _ => 255) 5 3 (by decide) (by decide) (by decide)
    (by decide)

/-- C4: in every fresh-synthesis call made while the phase is `STOP`, the
report's ink button bit `SWITCH_A` is asserted if and only if
`is_black(xpos, ypos)` holds at the current cursor position. -/
theorem spec_C4_ink (img : Nat → Nat) (s : MState) (b : Report)
    (h0 : s.echoes = 0) (hst : s.core.state = .STOP) :
    ((GetNextReport img s b).2.Button &&& SWITCH_A ≠ 0) ↔
      is_black img s.core.xpos s.core.ypos = true := by
  obtain ⟨⟨st, cc, x, y, lag⟩, e, lr⟩ := s
  simp only at h0 hst
  subst h0
  subst hst
  by_cases hib : is_black img x y
  · simp [GetNextReport, getNextCore, switchStep, emptyReport, hib, SWITCH_A]
  · simp [GetNextReport, getNextCore, switchStep, emptyReport, hib, SWITCH_A]

/-- Witness for C4 at a concrete inked position. -/
theorem spec_C4_ink_witness :
    ((GetNextReport (fun _ => 255)
        ⟨⟨.STOP, 0, 5, 3, 0⟩, 0, zeroReport⟩ zeroReport).2.Button &&&
          SWITCH_A ≠ 0) ↔
      is_black (fun _ => 255) (⟨⟨.STOP, 0, 5, 3, 0⟩, 0,
        zeroReport⟩ : MState).core.xpos
        (⟨⟨.STOP, 0, 5, 3, 0⟩, 0, zeroReport⟩ : MState).core.ypos = true :=
  spec_C4_ink (fun _ => 255) ⟨⟨.STOP, 0, 5, 3, 0⟩, 0, zeroReport⟩ zeroReport
    rfl rfl

/-- C9 counterexample: a call made in `DONE` with no echoes left does
populate the caller's report buffer: whatever junk the buffer held, the
call overwrites it with the neutral report. -/
theorem spec_C9_counterexample :
    (GetNextReport (fun _ => 0)
        ⟨⟨.DONE, 0, 0, 120, 0⟩, 0, zeroReport⟩
        ⟨9, 9, 9, 9, 9, 9, 9⟩).2 = emptyReport ∧
      (⟨9, 9, 9, 9, 9, 9, 9⟩ : Report) ≠ emptyReport := by
  constructor
  · rfl
  · decide

/-- C9 amended: when `GetNextReport` is called in `DONE` with no echo
replays left, it returns right after the neutral initialization: the
output buffer is overwritten with the neutral report regardless of its
prior contents, and no state mutation or echo caching occurs. -/
theorem spec_C9_amended (img : Nat → Nat) (s : MState) (b : Report)
    (h0 : s.echoes = 0) (hD : s.core.state = .DONE) :
    GetNextReport img s b = (s, emptyReport) := by
  simp [GetNextReport, h0, hD]

/-- Witness for the amended C9 at a concrete `DONE` state. -/
theorem spec_C9_amended_witness :
    GetNextReport (fun _ => 0) ⟨⟨.DONE, 0, 0, 120, 0⟩, 0, zeroReport⟩
        zeroReport =
      (⟨⟨.DONE, 0, 0, 120, 0⟩, 0, zeroReport⟩, emptyReport) :=
  spec_C9_amended (fun _ => 0) ⟨⟨.DONE, 0, 0, 120, 0⟩, 0, zeroReport⟩
    zeroReport rfl rfl

/-- C5: each freshly synthesized report (fresh calls happen exactly when
the echo counter is 0 and the phase is not `DONE`) is followed by exactly
`ECHOES = 2` replay calls, each returning the cached report byte-for-byte
identical to the original, before the next fresh synthesis; the replay
calls change nothing but the echo counter. -/
theorem spec_C5_echo (img : Nat → Nat) (s : MState) (b1 b2 b3 : Report)
    (h0 : s.echoes = 0) (hD : s.core.state ≠ .DONE) :
    (GetNextReport img s b1).1.echoes = ECHOES ∧
    GetNextReport img (GetNextReport img s b1).1 b2 =
      ({ (GetNextReport img s b1).1 with echoes := 1 },
       (GetNextReport img s b1).2) ∧
    GetNextReport img { (GetNextReport img s b1).1 with echoes := 1 } b3 =
      ({ (GetNextReport img s b1).1 with echoes := 0 },
       (GetNextReport img s b1).2) := by
  have e1 : GetNextReport img s b1 =
      ({ core := (getNextCore img s.core).1, echoes := 2,
         last_report := (getNextCore img s.core).2 },
       (getNextCore img s.core).2) := by
    simp [GetNextReport, h0, hD, ECHOES]
  rw [e1]
  refine ⟨rfl, ?_, ?_⟩
  · simp [GetNextReport]
  · simp [GetNextReport]

/-- Witness for C5 at a concrete `STOP` state. -/
theorem spec_C5_echo_witness :
    ((GetNextReport (fun _ => 0) ⟨⟨.STOP, 0, 5, 3, 0⟩, 0, zeroReport⟩
        zeroReport).1.echoes = ECHOES ∧
      GetNextReport (fun _ => 0)
          (GetNextReport (fun _ => 0) ⟨⟨.STOP, 0, 5, 3, 0⟩, 0, zeroReport⟩
            zeroReport).1 zeroReport =
        ({ (GetNextReport (fun _ => 0) ⟨⟨.STOP, 0, 5, 3, 0⟩, 0, zeroReport⟩
             zeroReport).1 with echoes := 1 },
         (GetNextReport (fun _ => 0) ⟨⟨.STOP, 0, 5, 3, 0⟩, 0, zeroReport⟩
           zeroReport).2) ∧
      GetNextReport (fun _ => 0)
          { (GetNextReport (fun _ => 0) ⟨⟨.STOP, 0, 5, 3, 0⟩, 0, zeroReport⟩
              zeroReport).1 with echoes := 1 } zeroReport =
        ({ (GetNextReport (fun _ => 0) ⟨⟨.STOP, 0, 5, 3, 0⟩, 0, zeroReport⟩
             zeroReport).1 with echoes := 0 },
         (GetNextReport (fun _ => 0) ⟨⟨.STOP, 0, 5, 3, 0⟩, 0, zeroReport⟩
           zeroReport).2)) :=
  spec_C5_echo (fun _ => 0) ⟨⟨.STOP, 0, 5, 3, 0⟩, 0, zeroReport⟩
    zeroReport zeroReport zeroReport rfl (by decide)

/-- C6: once the cursor row exceeds 119 and the `STOP`-phase step runs,
the phase becomes `DONE` and remains `DONE` for every subsequent call,
and the cursor position never changes again. -/
theorem spec_C6_done (img : Nat → Nat) (s : MState) (n : Nat)
    (h0 : s.echoes = 0) (hst : s.core.state = .STOP)
    (hy : s.core.ypos > 119) :
    (callStep img s).core.state = .DONE ∧
    (callRun img n (callStep img s)).core.state = .DONE ∧
    (callRun img n (callStep img s)).core.xpos = (callStep img s).core.xpos ∧
    (callRun img n (callStep img s)).core.ypos = (callStep img s).core.ypos := by
  have hDne : s.core.state ≠ .DONE := by
    rw [hst]
    decide
  have e1 : (callStep img s).core = (getNextCore img s.core).1 := by
    simp [callStep, GetNextReport, h0, hDne]
  have e2 : (callStep img s).core.state = .DONE := by
    rw [e1, step_stop_done img s.core hst hy]
  have e3 : (callRun img n (callStep img s)).core = (callStep img s).core :=
    done_callRun_core img n (callStep img s) e2
  exact ⟨e2, by rw [e3]; exact e2, by rw [e3], by rw [e3]⟩

/-- Witness for C6 at a concrete over-the-last-row `STOP` state. -/
theorem spec_C6_done_witness :
    (callStep (fun _ => 0) ⟨⟨.STOP, 0, 0, 120, 0⟩, 0, zeroReport⟩).core.state =
        .DONE ∧
      (callRun (fun _ => 0) 5
          (callStep (fun _ => 0)
            ⟨⟨.STOP, 0, 0, 120, 0⟩, 0, zeroReport⟩)).core.state = .DONE ∧
      (callRun (fun _ => 0) 5
          (callStep (fun _ => 0)
            ⟨⟨.STOP, 0, 0, 120, 0⟩, 0, zeroReport⟩)).core.xpos =
        (callStep (fun _ => 0)
          ⟨⟨.STOP, 0, 0, 120, 0⟩, 0, zeroReport⟩).core.xpos ∧
      (callRun (fun _ => 0) 5
          (callStep (fun _ => 0)
            ⟨⟨.STOP, 0, 0, 120, 0⟩, 0, zeroReport⟩)).core.ypos =
        (callStep (fun _ => 0)
          ⟨⟨.STOP, 0, 0, 120, 0⟩, 0, zeroReport⟩).core.ypos :=
  spec_C6_done (fun _ => 0) ⟨⟨.STOP, 0, 0, 120, 0⟩, 0, zeroReport⟩ 5 rfl rfl
    (by decide)

/-- C2: during the Move/Stop traversal, row parity determines the pad
direction away from the lag-correction boundaries: a fresh `MOVE` call on
an even row emits right and moves the cursor right, on an odd row emits
left and moves it left; the row is unchanged and the phase returns to
`STOP`. -/
theorem spec_C2_serpentine (img : Nat → Nat) (s : MState) (b : Report)
    (h0 : s.echoes = 0) (hm : s.core.state = .MOVE)
    (hx0 : 0 ≤ s.core.xpos) (hx1 : s.core.xpos ≤ 319)
    (hy0 : 0 ≤ s.core.ypos) (hy1 : s.core.ypos ≤ 119)
    (hnb : ¬((s.core.xpos = 0 ∧ s.core.ypos.tmod 2 = 1) ∨
             (s.core.xpos = 319 ∧ s.core.ypos.tmod 2 = 0))) :
    (GetNextReport img s b).2.HAT =
      (if s.core.ypos.tmod 2 = 0 then HAT_RIGHT else HAT_LEFT) ∧
    (GetNextReport img s b).1.core.xpos =
      s.core.xpos + (if s.core.ypos.tmod 2 = 0 then 1 else -1) ∧
    (GetNextReport img s b).1.core.ypos = s.core.ypos ∧
    (GetNextReport img s b).1.core.state = .STOP := by
  have hDne : s.core.state ≠ .DONE := by
    rw [hm]
    decide
  have e0 : GetNextReport img s b =
      ({ core := (getNextCore img s.core).1, echoes := 2,
         last_report := (getNextCore img s.core).2 },
       (getNextCore img s.core).2) := by
    simp [GetNextReport, h0, hDne, ECHOES]
  rw [e0]
  by_cases hpar : s.core.ypos.tmod 2 = 0
  · have hx : s.core.xpos < 319 := by
      rcases lt_or_eq_of_le hx1 with h | h
      · exact h
      · exact absurd (Or.inr ⟨h, hpar⟩) hnb
    rw [step_move_right img s.core hm hpar hx]
    simp [hpar]
  · have hpar1 : s.core.ypos.tmod 2 = 1 := by
      rw [tmod_two_eq _ hy0] at hpar ⊢
      omega
    have hx : s.core.xpos > 0 := by
      rcases lt_or_eq_of_le hx0 with h | h
      · exact h
      · exact absurd (Or.inl ⟨h.symm, hpar1⟩) hnb
    rw [step_move_left img s.core hm hpar1 hx]
    simp [hpar, hpar1]
    ring

/-- Witness for C2 at a concrete mid-row `MOVE` state. -/
theorem spec_C2_serpentine_witness :
    ((GetNextReport (fun _ => 0) ⟨⟨.MOVE, 0, 5, 2, 0⟩, 0, zeroReport⟩
        zeroReport).2.HAT =
      (if (⟨⟨.MOVE, 0, 5, 2, 0⟩, 0, zeroReport⟩ :
            MState).core.ypos.tmod 2 = 0 then HAT_RIGHT else HAT_LEFT) ∧
    (GetNextReport (fun _ => 0) ⟨⟨.MOVE, 0, 5, 2, 0⟩, 0, zeroReport⟩
        zeroReport).1.core.xpos =
      (⟨⟨.MOVE, 0, 5, 2, 0⟩, 0, zeroReport⟩ : MState).core.xpos +
        (if (⟨⟨.MOVE, 0, 5, 2, 0⟩, 0, zeroReport⟩ :
              MState).core.ypos.tmod 2 = 0 then 1 else -1) ∧
    (GetNextReport (fun _ => 0) ⟨⟨.MOVE, 0, 5, 2, 0⟩, 0, zeroReport⟩
        zeroReport).1.core.ypos =
      (⟨⟨.MOVE, 0, 5, 2, 0⟩, 0, zeroReport⟩ : MState).core.ypos ∧
    (GetNextReport (fun _ => 0) ⟨⟨.MOVE, 0, 5, 2, 0⟩, 0, zeroReport⟩
        zeroReport).1.core.state = .STOP) :=
  spec_C2_serpentine (fun _ => 0) ⟨⟨.MOVE, 0, 5, 2, 0⟩, 0, zeroReport⟩
    zeroReport rfl rfl (by decide) (by decide) (by decide) (by decide)
    (by decide)

/-- C3: at a row boundary (x = 0 on an odd row, x = 319 on an even row)
entered with lag counter 0, each of the first 10 `MOVE` steps (step
`2*k` of the interleaved Move/Stop sequence, `k < 10`) repeats the same
horizontal direction with the cursor pinned, the 11th `MOVE` step (step
20) emits the single down direction, and immediately after that down
step (step 21) the lag counter is 0 and the row has advanced. -/
theorem spec_C3_lag_window (img : Nat → Nat) (c : Core) (k : Nat)
    (hm : c.state = .MOVE)
    (hb : (c.xpos = 0 ∧ c.ypos.tmod 2 = 1) ∨
          (c.xpos = 319 ∧ c.ypos.tmod 2 = 0))
    (hlag : c.splat3_lag_correction_count = 0)
    (hy0 : 0 ≤ c.ypos) (hy1 : c.ypos ≤ 119) (hk : k < 10) :
    (getNextCore img (coreRun img (2 * k) c)).2.HAT =
      (if c.xpos = 0 then HAT_LEFT else HAT_RIGHT) ∧
    coreRun img (2 * k) c = { c with splat3_lag_correction_count := k } ∧
    (getNextCore img (coreRun img 20 c)).2.HAT = HAT_BOTTOM ∧
    coreRun img 21 c =
      { c with
        state := .STOP, splat3_lag_correction_count := 0,
        ypos := c.ypos + 1 } := by
  obtain ⟨st, cc, x, y, lag⟩ := c
  simp only at hm hb hlag hy0 hy1
  subst hm
  subst hlag
  have hy : ¬ y > 119 := by omega
  rcases hb with ⟨hx, hpar⟩ | ⟨hx, hpar⟩ <;> subst hx
  · have w1 := move_window_left img k cc y 0 hy hpar (by omega)
    have w2 := move_window_left img 10 cc y 0 hy hpar (by omega)
    norm_num at w1 w2
    have r1 : (getNextCore img ⟨.MOVE, cc, 0, y, k⟩).2.HAT = HAT_LEFT := by
      rw [step_move_lag_left img ⟨.MOVE, cc, 0, y, k⟩ rfl rfl hpar hk]
    have r2 : (getNextCore img ⟨.MOVE, cc, 0, y, 10⟩).2.HAT = HAT_BOTTOM := by
      rw [step_move_down_left img ⟨.MOVE, cc, 0, y, 10⟩ rfl rfl hpar
            (by show ¬ (10 : Nat) < 10; omega)]
    have r3 : coreRun img 21 ⟨.MOVE, cc, 0, y, 0⟩ =
        ⟨.STOP, cc, 0, y + 1, 0⟩ := by
      rw [show (21 : Nat) = 20 + 1 from rfl, coreRun_add,
          show (20 : Nat) = 2 * 10 from rfl, w2, coreRun_succ,
          step_move_down_left img ⟨.MOVE, cc, 0, y, 10⟩ rfl rfl hpar
            (by show ¬ (10 : Nat) < 10; omega)]
      rfl
    refine ⟨?_, ?_, ?_, ?_⟩
    · rw [w1, r1]
      simp
    · rw [w1]
    · rw [show (20 : Nat) = 2 * 10 from rfl, w2, r2]
    · rw [r3]
  · have w1 := move_window_right img k cc y 0 hy hpar (by omega)
    have w2 := move_window_right img 10 cc y 0 hy hpar (by omega)
    norm_num at w1 w2
    have r1 : (getNextCore img ⟨.MOVE, cc, 319, y, k⟩).2.HAT = HAT_RIGHT := by
      rw [step_move_lag_right img ⟨.MOVE, cc, 319, y, k⟩ rfl rfl hpar hk]
    have r2 : (getNextCore img ⟨.MOVE, cc, 319, y, 10⟩).2.HAT = HAT_BOTTOM := by
      rw [step_move_down_right img ⟨.MOVE, cc, 319, y, 10⟩ rfl rfl hpar
            (by show ¬ (10 : Nat) < 10; omega)]
    have r3 : coreRun img 21 ⟨.MOVE, cc, 319, y, 0⟩ =
        ⟨.STOP, cc, 319, y + 1, 0⟩ := by
      rw [show (21 : Nat) = 20 + 1 from rfl, coreRun_add,
          show (20 : Nat) = 2 * 10 from rfl, w2, coreRun_succ,
          step_move_down_right img ⟨.MOVE, cc, 319, y, 10⟩ rfl rfl hpar
            (by show ¬ (10 : Nat) < 10; omega)]
      rfl
    refine ⟨?_, ?_, ?_, ?_⟩
    · rw [w1, r1]
      simp
    · rw [w1]
    · rw [show (20 : Nat) = 2 * 10 from rfl, w2, r2]
    · rw [r3]

/-- Witness for C3 at the boundary (0, 1) with k = 3. -/
theorem spec_C3_lag_window_witness :
    ((getNextCore (fun _ => 0)
        (coreRun (fun _ => 0) (2 * 3) ⟨.MOVE, 0, 0, 1, 0⟩)).2.HAT =
      (if (⟨.MOVE, 0, 0, 1, 0⟩ : Core).xpos = 0 then HAT_LEFT
       else HAT_RIGHT) ∧
    coreRun (fun _ => 0) (2 * 3) ⟨.MOVE, 0, 0, 1, 0⟩ =
      { (⟨.MOVE, 0, 0, 1, 0⟩ : Core) with
        splat3_lag_correction_count := 3 } ∧
    (getNextCore (fun _ => 0)
        (coreRun (fun _ => 0) 20 ⟨.MOVE, 0, 0, 1, 0⟩)).2.HAT = HAT_BOTTOM ∧
    coreRun (fun _ => 0) 21 ⟨.MOVE, 0, 0, 1, 0⟩ =
      { (⟨.MOVE, 0, 0, 1, 0⟩ : Core) with
        state := .STOP,
        splat3_lag_correction_count := 0,
        ypos := (⟨.MOVE, 0, 0, 1, 0⟩ : Core).ypos + 1 }) :=
  spec_C3_lag_window (fun _ => 0) ⟨.MOVE, 0, 0, 1, 0⟩ 3 rfl
    (Or.inl ⟨rfl, by decide⟩) rfl (by decide) (by decide) (by decide)

/-- C7 counterexample, refuting both false parts of the claim: (a) after
exactly `ms_2_count 4000` logical steps from the `SYNC_POSITION` entry
state the phase is still `SYNC_POSITION`, not `STOP` (the phase actually
takes `ms_2_count 4000 + 2` steps); and (b) a non-transition step does
not drive both analog sticks to their minimum: the right stick's axes RX
and RY are left at the neutral `STICK_CENTER`, which differs from
`STICK_MIN`. -/
theorem spec_C7_counterexample :
    ((coreRun (fun _ => 0) (ms_2_count 4000)
        ⟨.SYNC_POSITION, 0, 0, 0, 0⟩).state = State_t.SYNC_POSITION ∧
      State_t.SYNC_POSITION ≠ State_t.STOP) ∧
    (getNextCore (fun _ => 0) ⟨.SYNC_POSITION, 0, 0, 0, 0⟩).2.RX =
      STICK_CENTER ∧
    (getNextCore (fun _ => 0) ⟨.SYNC_POSITION, 0, 0, 0, 0⟩).2.RY =
      STICK_CENTER ∧
    STICK_CENTER ≠ STICK_MIN := by
  refine ⟨⟨?_, by decide⟩, by decide, by decide, by decide⟩
  have h := sp_run (fun _ => 0) 250 0 0 0 0 (by decide)
  norm_num at h
  rw [show ms_2_count 4000 = 250 from by decide, h]

/-- C7 amended: the `SYNC_POSITION` phase takes `ms_2_count 4000 + 2`
logical steps, after which the cursor is exactly (0,0) and the phase is
`STOP`; during the phase every non-transition step (step `n` for
`n ≤ ms_2_count 4000`, at which `command_count = n`) drives the left
stick's axes LX and LY to the minimum stick value while the right
stick's axes RX and RY stay at the neutral center, and asserts exactly
the clear-screen bit `SWITCH_LCLICK` at the two checkpoints
`command_count = ms_2_count 1500` and `command_count = ms_2_count 3000`
and no button otherwise; the final transition step emits no button
either. -/
theorem spec_C7_amended (img : Nat → Nat) (c : Core) (n : Nat)
    (hs : c.state = .SYNC_POSITION) (hc : c.command_count = 0)
    (hn : n ≤ ms_2_count 4000) :
    coreRun img (ms_2_count 4000 + 2) c =
      ⟨.STOP, 0, 0, 0, c.splat3_lag_correction_count⟩ ∧
    (coreRun img n c).command_count = n ∧
    (getNextCore img (coreRun img n c)).2.LX = STICK_MIN ∧
    (getNextCore img (coreRun img n c)).2.LY = STICK_MIN ∧
    (getNextCore img (coreRun img n c)).2.RX = STICK_CENTER ∧
    (getNextCore img (coreRun img n c)).2.RY = STICK_CENTER ∧
    (getNextCore img (coreRun img n c)).2.Button =
      (if n = ms_2_count 1500 ∨ n = ms_2_count 3000 then SWITCH_LCLICK
       else 0) ∧
    (getNextCore img (coreRun img (ms_2_count 4000 + 1) c)).2.Button = 0 := by
  obtain ⟨st, cc, x, y, lag⟩ := c
  simp only at hs hc
  subst hs
  subst hc
  have hrun : coreRun img n ⟨.SYNC_POSITION, 0, x, y, lag⟩ =
      ⟨.SYNC_POSITION, n, x, y, lag⟩ := by
    have h := sp_run img n 0 x y lag (by omega)
    norm_num at h
    exact h
  have hrep := step_sp img ⟨.SYNC_POSITION, n, x, y, lag⟩ rfl hn
  have hrun251 : coreRun img (ms_2_count 4000 + 1)
      ⟨.SYNC_POSITION, 0, x, y, lag⟩ =
      ⟨.SYNC_POSITION, ms_2_count 4000 + 1, x, y, lag⟩ := by
    have h := sp_run img (ms_2_count 4000 + 1) 0 x y lag (by omega)
    norm_num at h
    exact h
  have hrep251 := step_sp_trans img
    ⟨.SYNC_POSITION, ms_2_count 4000 + 1, x, y, lag⟩ rfl
    (by show ms_2_count 4000 + 1 > ms_2_count 4000; omega)
  refine ⟨?_, ?_, ?_, ?_, ?_, ?_, ?_, ?_⟩
  · rw [show ms_2_count 4000 + 2 = (ms_2_count 4000 + 1) + 1 from rfl,
        coreRun_add, hrun251, coreRun_succ, hrep251]
    rfl
  · rw [hrun]
  · rw [hrun, hrep]
  · rw [hrun, hrep]
  · rw [hrun, hrep]
    rfl
  · rw [hrun, hrep]
    rfl
  · rw [hrun, hrep]
  · rw [hrun251, hrep251]
    rfl

/-- Witness for the amended C7 at the concrete entry state, n = 93. -/
theorem spec_C7_amended_witness :
    (coreRun (fun _ => 0) (ms_2_count 4000 + 2) ⟨.SYNC_POSITION, 0, 0, 0, 0⟩ =
      ⟨.STOP, 0, 0, 0,
        (⟨.SYNC_POSITION, 0, 0, 0, 0⟩ :
          Core).splat3_lag_correction_count⟩ ∧
    (coreRun (fun _ => 0) 93 ⟨.SYNC_POSITION, 0, 0, 0, 0⟩).command_count =
      93 ∧
    (getNextCore (fun _ => 0)
        (coreRun (fun _ => 0) 93 ⟨.SYNC_POSITION, 0, 0, 0, 0⟩)).2.LX =
      STICK_MIN ∧
    (getNextCore (fun _ => 0)
        (coreRun (fun _ => 0) 93 ⟨.SYNC_POSITION, 0, 0, 0, 0⟩)).2.LY =
      STICK_MIN ∧
    (getNextCore (fun _ => 0)
        (coreRun (fun _ => 0) 93 ⟨.SYNC_POSITION, 0, 0, 0, 0⟩)).2.RX =
      STICK_CENTER ∧
    (getNextCore (fun _ => 0)
        (coreRun (fun _ => 0) 93 ⟨.SYNC_POSITION, 0, 0, 0, 0⟩)).2.RY =
      STICK_CENTER ∧
    (getNextCore (fun _ => 0)
        (coreRun (fun _ => 0) 93 ⟨.SYNC_POSITION, 0, 0, 0, 0⟩)).2.Button =
      (if 93 = ms_2_count 1500 ∨ 93 = ms_2_count 3000 then SWITCH_LCLICK
       else 0) ∧
    (getNextCore (fun _ => 0)
        (coreRun (fun _ => 0) (ms_2_count 4000 + 1)
          ⟨.SYNC_POSITION, 0, 0, 0, 0⟩)).2.Button = 0) :=
  spec_C7_amended (fun _ => 0) ⟨.SYNC_POSITION, 0, 0, 0, 0⟩ 93 rfl rfl
    (by decide)

/-- C1 counterexample: the claimed invariant `y ≤ 119` fails on the real
run: after 238737 calls from the initial state the cursor row is 120, the
phase is `STOP` and the echo buffer is empty, so the very next call is a
fresh `STOP` synthesis that queries `is_black` at row 120. -/
theorem spec_C1_counterexample :
    (callRun (fun _ => 0) 238737 initialState).core.ypos = 120 ∧
    (callRun (fun _ => 0) 238737 initialState).core.state = State_t.STOP ∧
    (callRun (fun _ => 0) 238737 initialState).echoes = 0 := by
  have h := callRun_core (fun _ => 0) 79579 initialState rfl
  have t := trace_y120 (fun _ => 0)
  rw [show (238737 : Nat) = 3 * 79579 from by norm_num] at *
  rw [h.1, show initialState.core = initialCore from rfl, t]
  exact ⟨rfl, rfl, h.2⟩

/-- C1 amended: for every call count from the initial state the cursor
satisfies 0 ≤ x ≤ 319 and 0 ≤ y ≤ 120, and the row reaches 120 only with
the cursor at the left edge, so every `is_black` query stays inside the
bitmap (the single query outside the 0..119 row range is at (0, 120)). -/
theorem spec_C1_amended (img : Nat → Nat) (n : Nat) :
    0 ≤ (callRun img n initialState).core.xpos ∧
    (callRun img n initialState).core.xpos ≤ 319 ∧
    0 ≤ (callRun img n initialState).core.ypos ∧
    (callRun img n initialState).core.ypos ≤ 120 ∧
    ((callRun img n initialState).core.ypos = 120 →
      (callRun img n initialState).core.xpos = 0) := by
  obtain ⟨h1, h2, h3, h4, h5, h6⟩ := inv_callRun img n initialState inv_init
  exact ⟨h1, h2, h3, h4, h6⟩

/-- Witness for the amended C1 at n = 4. -/
theorem spec_C1_amended_witness :
    0 ≤ (callRun (fun _ => 0) 4 initialState).core.xpos ∧
    (callRun (fun _ => 0) 4 initialState).core.xpos ≤ 319 ∧
    0 ≤ (callRun (fun _ => 0) 4 initialState).core.ypos ∧
    (callRun (fun _ => 0) 4 initialState).core.ypos ≤ 120 ∧
    ((callRun (fun _ => 0) 4 initialState).core.ypos = 120 →
      (callRun (fun _ => 0) 4 initialState).core.xpos = 0) :=
  spec_C1_amended (fun _ => 0) 4

/-- C10: in every reachable state about to perform a fresh `STOP`-phase
bitmap query, the byte index `x / 8 + y * 40` is at most 4800 and hence
inside the `0x12c1`-byte (4801-byte) `image_data` array; the only way the
row can be 120 is with the cursor at x = 0. -/
theorem spec_C10_index (img : Nat → Nat) (s : MState) (hR : Reachable img s)
    (hst : s.core.state = .STOP) (h0 : s.echoes = 0) :
    (s.core.xpos.tdiv 8 + s.core.ypos * 40).toNat ≤ 4800 ∧
    4800 < IMAGE_SIZE ∧
    (s.core.ypos = 120 → s.core.xpos = 0) := by
  obtain ⟨n, rfl⟩ := hR
  obtain ⟨h1, h2, h3, h4, h5, h6⟩ := inv_callRun img n initialState inv_init
  refine ⟨?_, by norm_num [IMAGE_SIZE], h6⟩
  obtain ⟨a, hax⟩ := Int.eq_ofNat_of_zero_le h1
  obtain ⟨b, hby⟩ := Int.eq_ofNat_of_zero_le h3
  have ha : a ≤ 319 := by
    rw [hax] at h2
    exact_mod_cast h2
  have hb : b ≤ 120 := by
    rw [hby] at h4
    exact_mod_cast h4
  have key : (((a : Int).tdiv 8) + (b : Int) * 40).toNat = a / 8 + b * 40 := by
    rw [show (a : Int).tdiv 8 = ((a / 8 : Nat) : Int) from rfl,
        show ((b : Int) * 40) = ((b * 40 : Nat) : Int) from by push_cast; ring,
        ← Nat.cast_add, Int.toNat_natCast]
  rw [hax, hby, key]
  by_cases hb120 : b = 120
  · have ha0 : a = 0 := by
      have h := h6 (by rw [hby, hb120]; norm_num)
      rw [hax] at h
      exact_mod_cast h
    rw [hb120, ha0]
  · have hb' : b ≤ 119 := by omega
    omega

/-- Witness for C10 at the reachable `STOP` state after 1137 calls. -/
theorem spec_C10_index_witness :
    ((callRun (fun _ => 0) 1137 initialState).core.xpos.tdiv 8 +
        (callRun (fun _ => 0) 1137 initialState).core.ypos * 40).toNat ≤
      4800 ∧
    4800 < IMAGE_SIZE ∧
    ((callRun (fun _ => 0) 1137 initialState).core.ypos = 120 →
      (callRun (fun _ => 0) 1137 initialState).core.xpos = 0) := by
  have hc := callRun_core (fun _ => 0) 379 initialState rfl
  have ht := trace_sync (fun _ => 0)
  have e : (1137 : Nat) = 3 * 379 := by norm_num
  have hcore : (callRun (fun _ => 0) 1137 initialState).core =
      ⟨.STOP, 0, 0, 0, 0⟩ := by
    rw [e, hc.1, show initialState.core = initialCore from rfl, ht]
  exact spec_C10_index (fun _ => 0) (callRun (fun _ => 0) 1137 initialState)
    ⟨1137, rfl⟩ (by rw [hcore]) (by rw [e]; exact hc.2)
